import Mathlib

/-!
Verification development for the Avantis trader SDK (TypeScript).
The definitions below are a shallow embedding of the SDK's read-side
components: the pair registry cache (`src/rpc/pairs_cache.ts`), the
category aggregator (`src/rpc/category_parameters.ts`), the snapshot
builder (`src/rpc/snapshot.ts`), the streaming price-feed client
(`src/feed/feed_client.ts`), the trade transaction builder
(`src/rpc/trade.ts`) and the decimal conversion helpers
(`src/types.ts`).  JavaScript numbers are embedded as rationals (ℚ),
bigints as ℤ, JS `Map`s as insertion-ordered association lists, and
fallible remote reads as `Except String` values supplied by oracles.
-/

unseal Rat.mul Rat.inv Rat.add Rat.sub

/-- A JS `Map.set`: overwrite the value in place when the key is already
present (keeping its insertion position), otherwise append the new entry. -/
def jsMapSet {α β : Type} [DecidableEq α] : List (α × β) → α → β → List (α × β)
  | [], k, v => [(k, v)]
  | (k', v') :: rest, k, v =>
    if k' = k then (k, v) :: rest else (k', v') :: jsMapSet rest k v

/-- A JS `Map.get` / record index: the value of the first entry with the
given key, `none` (i.e. `undefined`) when the key is absent. -/
def jsMapGet {α β : Type} [DecidableEq α] : List (α × β) → α → Option β
  | [], _ => none
  | (k', v') :: rest, k => if k' = k then some v' else jsMapGet rest k

/-- JS `x || d` on a possibly-undefined number: both `undefined` and `0`
are falsy, so the default is used for both. -/
def jsOrInt (v : Option Int) (d : Int) : Int :=
  match v with
  | some n => if n = 0 then d else n
  | none => d

/-- JS `x || d` on a possibly-undefined rational-valued number. -/
def jsOrRat (v : Option ℚ) (d : ℚ) : ℚ :=
  match v with
  | some q => if q = 0 then d else q
  | none => d

/-- types.ts `fromBlockchain10`: convert a blockchain integer to a
decimal with 10^10 precision (`Number(BigInt(value)) / 1e10`). -/
def fromBlockchain10 (value : Int) : ℚ := (value : ℚ) / 10 ^ 10

/-- types.ts `fromBlockchain6`: convert a blockchain integer to a
decimal with 10^6 precision (`Number(BigInt(value)) / 1e6`). -/
def fromBlockchain6 (value : Int) : ℚ := (value : ℚ) / 10 ^ 6

/-- types.ts `toBlockchain10`: `BigInt(Math.floor(value * 1e10))`.
`Math.floor` rounds toward negative infinity. -/
def toBlockchain10 (value : ℚ) : Int := ⌊value * 10 ^ 10⌋

/-- types.ts `toBlockchain6`: `BigInt(Math.floor(value * 1e6))`. -/
def toBlockchain6 (value : ℚ) : Int := ⌊value * 10 ^ 6⌋

/-- Truncation of a rational toward zero, the wording the spec uses for
"truncated to the representable precision": drop the fractional part,
rounding toward zero (floor for non-negatives, ceiling for negatives).
Used only to compare the code's floor-based behaviour against the
reading of the claim that the conversion "truncates toward zero". -/
def truncTowardZero (v : ℚ) : Int := if 0 ≤ v then ⌊v⌋ else ⌈v⌉

/-- The spec-side reading of "v truncated to n decimal places"
(toward zero). -/
def truncToDecimals (n : Nat) (v : ℚ) : ℚ := (truncTowardZero (v * 10 ^ n) : ℚ) / 10 ^ n

/-- types.ts `Spread`. -/
structure Spread where
  min : ℚ
  max : ℚ
deriving DecidableEq, Repr

/-- types.ts `PairInfo`. -/
structure PairInfo where
  «from» : String
  «to» : String
  spread : Spread
  groupIndex : Nat
  feeIndex : Nat
  maxLeverage : ℚ
  maxOpenInterestUsdc : ℚ
deriving DecidableEq, Repr

/-- The `from/to` concatenation used as the name of a pair
(pairs_cache.ts line 658 and elsewhere). -/
def pairName (p : PairInfo) : String := p.«from» ++ "/" ++ p.«to»

/-- The raw tuple returned by the `PairStorage.pairs(i)` contract call,
as consumed by pairs_cache.ts lines 644-655: `spreadP`, `spread?.min`,
`spread?.max` and `maxOpenInterestUsdc` may be absent (`undefined`). -/
structure RawPairData where
  «from» : String
  «to» : String
  spreadP : Option Int
  spreadMin : Option Int
  spreadMax : Option Int
  groupIndex : Nat
  feeIndex : Nat
  maxLeverage : Int
  maxOpenInterestUsdc : Option Int
deriving DecidableEq, Repr

/-- pairs_cache.ts lines 644-655: build a `PairInfo` from the raw
contract data, with the `||` fallback chains of the source. -/
def mkPairInfo (raw : RawPairData) : PairInfo :=
  { «from» := raw.«from»
    «to» := raw.«to»
    spread :=
      { min := fromBlockchain10 (jsOrInt raw.spreadP (jsOrInt raw.spreadMin 0))
        max := fromBlockchain10 (jsOrInt raw.spreadP (jsOrInt raw.spreadMax 0)) }
    groupIndex := raw.groupIndex
    feeIndex := raw.feeIndex
    maxLeverage := fromBlockchain10 raw.maxLeverage
    maxOpenInterestUsdc := fromBlockchain6 (jsOrInt raw.maxOpenInterestUsdc 0) }

/-- The remote `PairStorage` contract as seen by `PairsCache`: the
`pairsCount()` and `pairs(i)` reads, each of which may fail. -/
structure PairStorageContract where
  pairsCount : Except String Nat
  pairs : Nat → Except String RawPairData

/-- The mutable state of `PairsCache` (pairs_cache.ts lines 614-615):
the optional pair map and the optional name-to-index map. -/
structure PairsCacheState where
  pairsCache : Option (List (Nat × PairInfo))
  pairNameToIndexMap : Option (List (String × Nat))
deriving DecidableEq, Repr

/-- pairs_cache.ts lines 641-659: the fetch loop of `getPairsInfo`.
It iterates `i` over the pair indexes, fetching each pair and building
the two local maps; the first fetch failure aborts the loop with that
error.  `i` is the next index to fetch and `remaining` the number of
indexes still to process. -/
def fetchPairsLoop (c : PairStorageContract) :
    List (Nat × PairInfo) → List (String × Nat) → Nat → Nat →
    Except String (List (Nat × PairInfo) × List (String × Nat))
  | pairs, pairNameToIndex, _, 0 => .ok (pairs, pairNameToIndex)
  | pairs, pairNameToIndex, i, r + 1 =>
    match c.pairs i with
    | .error e => .error e
    | .ok raw =>
      let pairInfo := mkPairInfo raw
      fetchPairsLoop c (jsMapSet pairs i pairInfo)
        (jsMapSet pairNameToIndex (pairName pairInfo) i) (i + 1) r

/-- pairs_cache.ts lines 627-669, `PairsCache.getPairsInfo`: return the
cache when present and no refresh is forced; otherwise fetch the count
and every pair into two local maps, and only on full success assign
both instance fields together.  Any failure leaves the state untouched
and propagates the error. -/
def getPairsInfo (c : PairStorageContract) (st : PairsCacheState)
    (forceRefresh : Bool) :
    PairsCacheState × Except String (List (Nat × PairInfo)) :=
  match st.pairsCache, forceRefresh with
  | some cache, false => (st, .ok cache)
  | _, _ =>
    match c.pairsCount with
    | .error e => (st, .error e)
    | .ok count =>
      match fetchPairsLoop c [] [] 0 count with
      | .error e => (st, .error e)
      | .ok (ps, ns) =>
        ({ pairsCache := some ps, pairNameToIndexMap := some ns }, .ok ps)

/-- pairs_cache.ts lines 693-698, `PairsCache.getPairIndex`: populate
the cache when the name map is absent, then look the name up. -/
def getPairIndex (c : PairStorageContract) (st : PairsCacheState)
    (name : String) : PairsCacheState × Except String (Option Nat) :=
  match st.pairNameToIndexMap with
  | some m => (st, .ok (jsMapGet m name))
  | none =>
    match getPairsInfo c st false with
    | (st', .error e) => (st', .error e)
    | (st', .ok _) =>
      (st', .ok (jsMapGet (st'.pairNameToIndexMap.getD []) name))

/-- pairs_cache.ts lines 751-754, `PairsCache.getPairByIndex`: resolve
the pair map via `getPairsInfo` and index into it. -/
def getPairByIndex (c : PairStorageContract) (st : PairsCacheState)
    (pairIndex : Nat) : PairsCacheState × Except String (Option PairInfo) :=
  match getPairsInfo c st false with
  | (st', .error e) => (st', .error e)
  | (st', .ok pairs) => (st', .ok (jsMapGet pairs pairIndex))

/-- pairs_cache.ts lines 759-762, `PairsCache.clearCache`. -/
def clearCache (_st : PairsCacheState) : PairsCacheState :=
  { pairsCache := none, pairNameToIndexMap := none }

/-- types.ts `OpenInterest`. -/
structure OpenInterest where
  long : ℚ
  short : ℚ
  max : ℚ
deriving DecidableEq, Repr

/-- types.ts `Utilization`. -/
structure Utilization where
  utilizationLong : ℚ
  utilizationShort : ℚ
deriving DecidableEq, Repr

/-- types.ts `Skew`. -/
structure Skew where
  skew : ℚ
deriving DecidableEq, Repr

/-- types.ts `Fee`. -/
structure Fee where
  feeP : ℚ
deriving DecidableEq, Repr

/-- types.ts `Depth`. -/
structure Depth where
  onePercentDepthAboveUsdc : ℚ
  onePercentDepthBelowUsdc : ℚ
deriving DecidableEq, Repr

/-- The `{above, below}` entries produced by the one-percent-depth
read of the asset aggregator, as consumed by snapshot.ts lines 100-101. -/
structure DepthEntry where
  above : ℚ
  below : ℚ
deriving DecidableEq, Repr

/-- The remote `PairStorage` reads used by `CategoryParametersRPC`
(category_parameters.ts): per-group open interest by side and
per-group collateral limits, each fallible. -/
structure CategoryOracle where
  groupOI : Nat → Nat → Except String Int
  groupCollateral : Nat → Bool → Except String Int

/-- category_parameters.ts lines 27-45, `CategoryParametersRPC.getOILimits`:
one `groupCollateral(g, true)` read per group; a failing group is
logged and skipped (its entry is simply absent). -/
def getOILimits (o : CategoryOracle) (groupIndexes : List Nat) :
    List (Nat × OpenInterest) :=
  groupIndexes.foldl
    (fun limits groupIndex =>
      match o.groupCollateral groupIndex true with
      | .error _ => limits
      | .ok maxOI =>
        jsMapSet limits groupIndex
          { long := fromBlockchain6 maxOI
            short := fromBlockchain6 maxOI
            max := fromBlockchain6 maxOI }) []

/-- category_parameters.ts lines 51-74, `CategoryParametersRPC.getOI`:
per group, fetch long and short OI and combine with the limits map
(`limits.get(groupIndex)?.max || 0`); a group whose fetch fails is
logged and skipped. -/
def getOI (o : CategoryOracle) (groupIndexes : List Nat) :
    List (Nat × OpenInterest) :=
  groupIndexes.foldl
    (fun oi groupIndex =>
      match o.groupOI groupIndex 0 with
      | .error _ => oi
      | .ok groupOILong =>
        match o.groupOI groupIndex 1 with
        | .error _ => oi
        | .ok groupOIShort =>
          let limits := getOILimits o groupIndexes
          let maxOI := jsOrRat ((jsMapGet limits groupIndex).map OpenInterest.max) 0
          jsMapSet oi groupIndex
            { long := fromBlockchain6 groupOILong
              short := fromBlockchain6 groupOIShort
              max := maxOI }) []

/-- category_parameters.ts lines 84-91: the per-entry utilization
computation of `getUtilization`. -/
def utilizationOf (oiData : OpenInterest) : Utilization :=
  { utilizationLong := if 0 < oiData.max then oiData.long / oiData.max * 100 else 0
    utilizationShort := if 0 < oiData.max then oiData.short / oiData.max * 100 else 0 }

/-- category_parameters.ts lines 80-95, `CategoryParametersRPC.getUtilization`:
derive utilization from each entry of the result of `getOI`. -/
def getUtilization (oi : List (Nat × OpenInterest)) : List (Nat × Utilization) :=
  oi.foldl (fun utilization e => jsMapSet utilization e.1 (utilizationOf e.2)) []

/-- category_parameters.ts lines 105-109: the per-entry skew
computation of `getCategorySkew`. -/
def skewOf (oiData : OpenInterest) : Skew :=
  let total := oiData.long + oiData.short
  { skew := if 0 < total then oiData.long / total else 1 / 2 }

/-- category_parameters.ts lines 101-113, `CategoryParametersRPC.getCategorySkew`:
derive skew from each entry of the result of `getOI`. -/
def getCategorySkew (oi : List (Nat × OpenInterest)) : List (Nat × Skew) :=
  oi.foldl (fun skew e => jsMapSet skew e.1 (skewOf e.2)) []

/-- types.ts `PairData` (snapshot leaf): pair metadata plus optional
per-pair metrics. -/
structure PairData where
  pairInfo : PairInfo
  openInterest : Option OpenInterest
  utilization : Option Utilization
  skew : Option Skew
  fee : Option Fee
  depth : Option Depth
  spread : Option ℚ
deriving DecidableEq, Repr

/-- types.ts `Group` (snapshot node; named `SnapshotGroup` here because
`Group` is taken by Mathlib). -/
structure SnapshotGroup where
  groupIndex : Nat
  pairs : List (String × PairData)
  openInterest : Option OpenInterest
  utilization : Option Utilization
  skew : Option Skew
deriving DecidableEq, Repr

/-- types.ts `Snapshot` (snapshot root). -/
structure Snapshot where
  groups : List (String × SnapshotGroup)
deriving DecidableEq, Repr

/-- pairs_cache.ts lines 733-744, `PairsCache.getPairsInGroup`: the
indexes of the cached pairs whose `groupIndex` matches, in map
iteration order. -/
def getPairsInGroup (pairs : List (Nat × PairInfo)) (groupIndex : Nat) : List Nat :=
  (pairs.filter (fun e => e.2.groupIndex == groupIndex)).map Prod.fst

/-- The twelve aggregator-level reads `SnapshotRPC.getSnapshot` awaits
in its `Promise.all` (snapshot.ts lines 54-67), each fallible at the
call level. -/
structure SnapshotReads where
  pairs : Except String (List (Nat × PairInfo))
  groupIndexes : Except String (List Nat)
  assetOI : Except String (List (Nat × OpenInterest))
  categoryOI : Except String (List (Nat × OpenInterest))
  assetUtilization : Except String (List (Nat × Utilization))
  categoryUtilization : Except String (List (Nat × Utilization))
  assetSkew : Except String (List (Nat × Skew))
  categorySkew : Except String (List (Nat × Skew))
  blendedUtilization : Except String (List (Nat × Utilization))
  blendedSkew : Except String (List (Nat × Skew))
  fees : Except String (List (Nat × Fee))
  depth : Except String (List (Nat × DepthEntry))

/-- snapshot.ts lines 76-109: assemble one `Group` of the snapshot from
the already-resolved reads: category-level metrics are looked up by
group index, each pair in the group gets its per-pair slices, a pair
index absent from the registry map is skipped. -/
def buildGroup (pairs : List (Nat × PairInfo))
    (assetOI : List (Nat × OpenInterest))
    (blendedUtilization : List (Nat × Utilization))
    (blendedSkew : List (Nat × Skew))
    (fees : List (Nat × Fee))
    (depth : List (Nat × DepthEntry))
    (categoryOI : List (Nat × OpenInterest))
    (categoryUtilization : List (Nat × Utilization))
    (categorySkew : List (Nat × Skew))
    (groupIndex : Nat) : SnapshotGroup :=
  { groupIndex := groupIndex
    pairs :=
      (getPairsInGroup pairs groupIndex).filterMap
        (fun pairIndex =>
          match jsMapGet pairs pairIndex with
          | none => none
          | some pairInfo =>
            some (pairName pairInfo,
              { pairInfo := pairInfo
                openInterest := jsMapGet assetOI pairIndex
                utilization := jsMapGet blendedUtilization pairIndex
                skew := jsMapGet blendedSkew pairIndex
                fee := jsMapGet fees pairIndex
                depth := some
                  { onePercentDepthAboveUsdc :=
                      jsOrRat ((jsMapGet depth pairIndex).map DepthEntry.above) 0
                    onePercentDepthBelowUsdc :=
                      jsOrRat ((jsMapGet depth pairIndex).map DepthEntry.below) 0 }
                spread := some pairInfo.spread.min }))
    openInterest := jsMapGet categoryOI groupIndex
    utilization := jsMapGet categoryUtilization groupIndex
    skew := jsMapGet categorySkew groupIndex }

/-- snapshot.ts lines 37-114, `SnapshotRPC.getSnapshot`: await all
twelve aggregator reads (any rejection rejects the whole build), then
assemble the snapshot group by group.  The asset-level utilization and
skew reads are awaited but not used in the assembly, exactly as in the
source. -/
def getSnapshot (r : SnapshotReads) : Except String Snapshot := do
  let pairs ← r.pairs
  let groupIndexes ← r.groupIndexes
  let assetOI ← r.assetOI
  let categoryOI ← r.categoryOI
  let _assetUtilization ← r.assetUtilization
  let categoryUtilization ← r.categoryUtilization
  let _assetSkew ← r.assetSkew
  let categorySkew ← r.categorySkew
  let blendedUtilization ← r.blendedUtilization
  let blendedSkew ← r.blendedSkew
  let fees ← r.fees
  let depth ← r.depth
  pure
    { groups :=
        groupIndexes.map
          (fun groupIndex =>
            ("group_" ++ toString groupIndex,
              buildGroup pairs assetOI blendedUtilization blendedSkew fees depth
                categoryOI categoryUtilization categorySkew groupIndex)) }

/-- types.ts `Price` (and the identical `EmaPrice`): the validated
Pyth price payload. -/
structure Price where
  price : String
  conf : String
  expo : Int
  publishTime : Int
deriving DecidableEq, Repr

/-- types.ts `PriceFeedResponse`: a schema-valid price update. -/
structure PriceFeedResponse where
  id : String
  price : Price
  emaPrice : Price
deriving DecidableEq, Repr

/-- A raw price object as it arrives on the wire, before schema
validation: every field may be absent. -/
structure RawPrice where
  price : Option String
  conf : Option String
  expo : Option Int
  publishTime : Option Int
deriving DecidableEq, Repr

/-- A raw parsed JSON message from the stream, before schema
validation: every field may be absent. -/
structure RawMessage where
  type : Option String
  id : Option String
  price : Option RawPrice
  emaPrice : Option RawPrice
deriving DecidableEq, Repr

/-- Validation of one raw price object against types.ts `PriceSchema`:
all four fields must be present. -/
def parsePrice (r : RawPrice) : Option Price :=
  match r.price, r.conf, r.expo, r.publishTime with
  | some price, some conf, some expo, some publishTime =>
    some { price := price, conf := conf, expo := expo, publishTime := publishTime }
  | _, _, _, _ => none

/-- Validation of a raw message against types.ts
`PriceFeedResponseSchema` (`zod .parse`, modelled as `Option`):
requires `id`, a valid `price` and a valid `emaPrice`. -/
def parsePriceFeedResponse (m : RawMessage) : Option PriceFeedResponse :=
  match m.id, m.price, m.emaPrice with
  | some id, some rawPrice, some rawEma =>
    match parsePrice rawPrice, parsePrice rawEma with
    | some price, some emaPrice => some { id := id, price := price, emaPrice := emaPrice }
    | _, _ => none
  | _, _, _ => none

/-- The state of `FeedClient` (feed_client.ts lines 357-384) that the
claims are about: the reconnect counter and its two constants, and the
callback registry (feed id to list of observers, observers embedded as
`Nat` tokens). -/
structure FeedClientState where
  reconnectAttempts : Nat
  maxReconnectAttempts : Nat
  reconnectDelay : Nat
  callbacks : List (String × List Nat)
deriving DecidableEq, Repr

/-- The initial state set by the constructor (feed_client.ts lines 364-366 and
374-384): counter 0, at most 5 attempts, base delay 1000 ms, empty
callback registry. -/
def initFeedClientState : FeedClientState :=
  { reconnectAttempts := 0
    maxReconnectAttempts := 5
    reconnectDelay := 1000
    callbacks := [] }

/-- feed_client.ts lines 391-396, `registerPriceFeedCallback`: create
an empty list for a new feed id, then push the callback. -/
def registerPriceFeedCallback (cbs : List (String × List Nat)) (feedId : String)
    (cb : Nat) : List (String × List Nat) :=
  let cbs := if (jsMapGet cbs feedId).isNone then jsMapSet cbs feedId [] else cbs
  jsMapSet cbs feedId ((jsMapGet cbs feedId).getD [] ++ [cb])

/-- JS `indexOf` + `splice(index, 1)`: remove the first occurrence of
an element from a list, leaving the list unchanged when it is absent. -/
def removeFirst (l : List Nat) (cb : Nat) : List Nat :=
  match l with
  | [] => []
  | x :: xs => if x = cb then xs else x :: removeFirst xs cb

/-- feed_client.ts lines 403-411, `unregisterPriceFeedCallback`: remove
the first occurrence of the callback from the list of that feed; the (possibly
now empty) list stays in the map. -/
def unregisterPriceFeedCallback (cbs : List (String × List Nat)) (feedId : String)
    (cb : Nat) : List (String × List Nat) :=
  match jsMapGet cbs feedId with
  | none => cbs
  | some feedCallbacks => jsMapSet cbs feedId (removeFirst feedCallbacks cb)

/-- feed_client.ts lines 440-451, the `open` handler of
`listenForPriceUpdates`: reset the reconnect counter to zero, then send
one subscribe message for all keys of the callback map when that key
set is non-empty (`subscribeToPriceFeeds`, lines 493-506).  The second
component is the `ids` list of the subscribe message sent, `none` when
no message is sent. -/
def openHandler (st : FeedClientState) : FeedClientState × Option (List String) :=
  let st' := { st with reconnectAttempts := 0 }
  let feedIds := st'.callbacks.map Prod.fst
  (st', if feedIds.length > 0 then some feedIds else none)

/-- feed_client.ts lines 553-569, `attemptReconnect`: when the counter
has reached the maximum, do nothing (no further automatic attempt);
otherwise increment the counter and schedule a reconnection after
`reconnectDelay * 2 ^ (attempt - 1)` milliseconds.  The second
component is the scheduled delay, `none` when no attempt is scheduled. -/
def attemptReconnect (st : FeedClientState) : FeedClientState × Option Nat :=
  if st.reconnectAttempts ≥ st.maxReconnectAttempts then (st, none)
  else
    let attempts := st.reconnectAttempts + 1
    ({ st with reconnectAttempts := attempts },
      some (st.reconnectDelay * 2 ^ (attempts - 1)))

/-- feed_client.ts lines 474-482, the `close` handler of
`listenForPriceUpdates`: run the optional `onClose` hook (a no-op
here), then call `attemptReconnect` unconditionally.  The handler stays
attached to the socket, and the `ws` library emits a `close` event
after a deliberate `socket.close()` as well, so `FeedClient.close()`
(lines 590-595) also leads to this handler running: nothing in the
source distinguishes a deliberate close from an unplanned one. -/
def closeEventHandler (st : FeedClientState) : FeedClientState × Option Nat :=
  attemptReconnect st

/-- A sequence of `n` consecutive close events with no successful
reopen in between: each event runs the close handler; the second
component collects the delays of the reconnection attempts actually
scheduled, in order. -/
def processCloseEvents (st : FeedClientState) : Nat → FeedClientState × List Nat
  | 0 => (st, [])
  | n + 1 =>
    let (st', d) := closeEventHandler st
    let (st'', ds) := processCloseEvents st' n
    (st'', d.toList ++ ds)

/-- feed_client.ts lines 529-548, `handlePriceUpdate`: validate the
message against the schema; on failure log and drop (no observer runs);
on success run every callback registered for the feed id of the update.
The
result is the list of (observer, payload) invocations; the whole body
is wrapped in try/catch in the source, so the handler is total and
takes no connection-closing action. -/
def handlePriceUpdate (cbs : List (String × List Nat)) (m : RawMessage) :
    List (Nat × PriceFeedResponse) :=
  match parsePriceFeedResponse m with
  | none => []
  | some priceFeed =>
    ((jsMapGet cbs priceFeed.id).getD []).map (fun cb => (cb, priceFeed))

/-- feed_client.ts lines 453-464, the `message` handler of
`listenForPriceUpdates`: `none` models raw data that fails
`JSON.parse` (logged and dropped); a parsed message is dispatched to
`handlePriceUpdate` only when its `type` is `price_update`, and
ignored otherwise.  The handler never closes the connection. -/
def messageHandler (cbs : List (String × List Nat)) (data : Option RawMessage) :
    List (Nat × PriceFeedResponse) :=
  match data with
  | none => []
  | some message =>
    if message.type = some "price_update" then handlePriceUpdate cbs message else []

/-- types.ts `TradeInput`; `orderType` is kept as the raw string the
caller supplied, which is what trade.ts `getOrderTypeValue` receives. -/
structure TradeInput where
  pair : String
  isLong : Bool
  collateralInTrade : ℚ
  leverage : ℚ
  openPrice : ℚ
  tp : ℚ
  sl : ℚ
  referrer : Option String
  orderType : String
  maxSlippageP : ℚ
deriving DecidableEq, Repr

/-- The `trade` tuple built by trade.ts lines 46-57. -/
structure TradeStruct where
  trader : String
  pairIndex : Nat
  index : Nat
  initialPosToken : Nat
  positionSizeUsdc : Int
  openPrice : Int
  buy : Bool
  leverage : Int
  tp : Int
  sl : Int
deriving DecidableEq, Repr

/-- The argument list of the `openTrade` call encoded by
trade.ts lines 63-72, together with the attached execution fee. -/
structure OpenTradeTx where
  trade : TradeStruct
  orderType : Nat
  slippageP : Int
  referrer : String
  value : Int
deriving DecidableEq, Repr

/-- JS `record[key] || 0` on a `Record<string, number>` lookup:
`undefined` and `0` are both falsy. -/
def jsOrNat (v : Option Nat) (d : Nat) : Nat :=
  match v with
  | some n => if n = 0 then d else n
  | none => d

/-- The result of the JS expression `orderTypes[orderType] || 0` in
trade.ts line 253: either a number, or — when the key names a member
inherited from `Object.prototype` — that inherited member itself (a
truthy function or object), which `|| 0` passes through unchanged. -/
inductive JsNumOrMember where
  | num (n : Nat)
  | protoMember (name : String)
deriving DecidableEq, Repr

/-- The enumerable and non-enumerable member names of
`Object.prototype`, inherited by every JS object literal: property
access on the `orderTypes` record falls through to these when the key
is not an own property. -/
def objectProtoKeys : List String :=
  ["constructor", "hasOwnProperty", "isPrototypeOf", "propertyIsEnumerable",
    "toLocaleString", "toString", "valueOf", "__proto__", "__defineGetter__",
    "__defineSetter__", "__lookupGetter__", "__lookupSetter__"]

/-- trade.ts lines 246-254, `TradeRPC.getOrderTypeValue`:
`orderTypes[orderType] || 0` on the four-entry object literal.  An own
key yields its number (with `0 || 0 = 0`); a key naming an inherited
`Object.prototype` member yields that truthy member, which survives
`|| 0`; any other key yields `undefined`, defaulted to 0. -/
def getOrderTypeValue (orderType : String) : JsNumOrMember :=
  let orderTypes : List (String × Nat) :=
    [("market", 0), ("limit", 1), ("stop_limit", 2), ("market_zero_fee", 3)]
  match jsMapGet orderTypes orderType with
  | some n => .num (jsOrNat (some n) 0)
  | none =>
    if orderType ∈ objectProtoKeys then .protoMember orderType
    else .num 0

/-- trade.ts lines 39-73, `TradeRPC.buildTradeOpenTx`: resolve the pair
index (failing with an error when the pair is unknown), build the trade
tuple in blockchain units, and encode the `openTrade` call with the
numeric order type, the scaled slippage and the referrer default.
When `getOrderTypeValue` returned an inherited `Object.prototype`
member instead of a number, `encodeFunctionData` throws while coercing
it to the `uint` parameter (an invalid BigNumberish), so the build
fails.  `pairIndexOf` abstracts `pairsCache.getPairIndex` and
`executionFee` the `getExecutionFee` contract read. -/
def buildTradeOpenTx (pairIndexOf : String → Option Nat) (executionFee : Int)
    (tradeInput : TradeInput) : Except String OpenTradeTx :=
  match pairIndexOf tradeInput.pair with
  | none => .error ("Pair " ++ tradeInput.pair ++ " not found")
  | some pairIndex =>
    match getOrderTypeValue tradeInput.orderType with
    | .protoMember _ => .error "invalid BigNumberish value"
    | .num orderTypeValue =>
      .ok
        { trade :=
            { trader := ""
              pairIndex := pairIndex
              index := 0
              initialPosToken := 0
              positionSizeUsdc :=
                toBlockchain6 (tradeInput.collateralInTrade * tradeInput.leverage)
              openPrice := toBlockchain10 tradeInput.openPrice
              buy := tradeInput.isLong
              leverage := toBlockchain10 tradeInput.leverage
              tp := toBlockchain10 tradeInput.tp
              sl := toBlockchain10 tradeInput.sl }
          orderType := orderTypeValue
          slippageP := toBlockchain10 tradeInput.maxSlippageP
          referrer := tradeInput.referrer.getD "0x0000000000000000000000000000000000000000"
          value := executionFee }

/-- Concrete fixture: a raw pair as returned by `PairStorage.pairs(0)`. -/
def fixRaw0 : RawPairData :=
  { «from» := "BTC", «to» := "USD", spreadP := some 100, spreadMin := none,
    spreadMax := none, groupIndex := 0, feeIndex := 0, maxLeverage := 5000,
    maxOpenInterestUsdc := some 1000000 }

/-- Concrete fixture: a raw pair as returned by `PairStorage.pairs(1)`. -/
def fixRaw1 : RawPairData :=
  { «from» := "ETH", «to» := "USD", spreadP := none, spreadMin := some 30,
    spreadMax := some 40, groupIndex := 1, feeIndex := 1, maxLeverage := 2500,
    maxOpenInterestUsdc := none }

/-- Concrete fixture: a registry whose second pair read fails. -/
def fixFailingContract : PairStorageContract :=
  { pairsCount := .ok 2
    pairs := fun i => if i = 0 then .ok fixRaw0 else .error "boom" }

/-- Concrete fixture: a previously populated cache state. -/
def fixPrevState : PairsCacheState :=
  { pairsCache := some [(0, mkPairInfo fixRaw1)]
    pairNameToIndexMap := some [("ETH/USD", 0)] }

/-- Concrete fixture: a registry that serves both pairs successfully. -/
def fixGoodContract : PairStorageContract :=
  { pairsCount := .ok 2
    pairs := fun i => if i = 0 then .ok fixRaw0 else .ok fixRaw1 }

/-- Concrete fixture: the pair map produced by a successful fetch from
`fixGoodContract`. -/
def fixGoodPairs : List (Nat × PairInfo) :=
  [(0, mkPairInfo fixRaw0), (1, mkPairInfo fixRaw1)]

/-- Concrete fixture: the cache state after a successful fetch from
`fixGoodContract`. -/
def fixGoodState : PairsCacheState :=
  { pairsCache := some fixGoodPairs
    pairNameToIndexMap := some [("BTC/USD", 0), ("ETH/USD", 1)] }

/-- Concrete fixture: a category oracle serving group 0 and failing for
every other group. -/
def fixCategoryOracle : CategoryOracle :=
  { groupOI := fun groupIndex side =>
      if groupIndex = 0 then (if side = 0 then .ok 3000000 else .ok 1000000)
      else .error "down"
    groupCollateral := fun groupIndex _ =>
      if groupIndex = 0 then .ok 10000000 else .error "down" }

/-- Concrete fixture: snapshot reads in which every aggregator call
succeeds but the open-interest fetch of group 1 failed inside the category
aggregator, so group 1 is absent from the category OI map. -/
def fixSnapshotReads : SnapshotReads :=
  { pairs := .ok []
    groupIndexes := .ok [1]
    assetOI := .ok []
    categoryOI := .ok (getOI fixCategoryOracle [1])
    assetUtilization := .ok []
    categoryUtilization := .ok []
    assetSkew := .ok []
    categorySkew := .ok []
    blendedUtilization := .ok []
    blendedSkew := .ok []
    fees := .ok []
    depth := .ok [] }

/-- Concrete fixture: the snapshot built from `fixSnapshotReads`. -/
def fixSnapshot : Snapshot :=
  { groups := [("group_" ++ toString 1,
      { groupIndex := 1, pairs := [], openInterest := none, utilization := none,
        skew := none })] }

/-- Concrete fixture: a feed-client state in which feed `"a"` was
registered once and then unregistered, leaving an empty observer list
in the callback map. -/
def fixEmptiedFeedState : FeedClientState :=
  { reconnectAttempts := 2
    maxReconnectAttempts := 5
    reconnectDelay := 1000
    callbacks := unregisterPriceFeedCallback (registerPriceFeedCallback [] "a" 0) "a" 0 }

/-- Concrete fixture: a callback registry with one observer on feed
`"f1"` and none elsewhere. -/
def fixCallbacks : List (String × List Nat) := [("f1", [7]), ("f2", [])]

/-- Concrete fixture: a raw price object missing its `conf` field. -/
def fixBadRawPrice : RawPrice :=
  { price := some "50000", conf := none, expo := some (-8),
    publishTime := some 1700000000 }

/-- Concrete fixture: a complete raw price object. -/
def fixRawPrice : RawPrice :=
  { price := some "50000", conf := some "12", expo := some (-8),
    publishTime := some 1700000000 }

/-- Concrete fixture: a complete raw EMA price object. -/
def fixRawEma : RawPrice :=
  { price := some "49000", conf := some "10", expo := some (-8),
    publishTime := some 1700000000 }

/-- Concrete fixture: a stream message of type `price_update` that is
missing the `conf` field of its price, so it fails schema validation. -/
def fixBadMessage : RawMessage :=
  { type := some "price_update", id := some "f1", price := some fixBadRawPrice,
    emaPrice := some fixRawEma }

/-- Concrete fixture: a schema-valid `price_update` stream message. -/
def fixGoodMessage : RawMessage :=
  { type := some "price_update", id := some "f1", price := some fixRawPrice,
    emaPrice := some fixRawEma }

/-- Concrete fixture: the payload `fixGoodMessage` validates to. -/
def fixGoodPayload : PriceFeedResponse :=
  { id := "f1"
    price := { price := "50000", conf := "12", expo := -8, publishTime := 1700000000 }
    emaPrice := { price := "49000", conf := "10", expo := -8, publishTime := 1700000000 } }

/-- Concrete fixture: a pair-name resolver knowing only `"BTC/USD"`. -/
def fixPairIndexOf : String → Option Nat :=
  fun name => if name = "BTC/USD" then some 0 else none

/-- Concrete fixture: a trade input whose `orderType` string is not one
of the four recognized values. -/
def fixStrayOrderInput : TradeInput :=
  { pair := "BTC/USD", isLong := true, collateralInTrade := 100, leverage := 10,
    openPrice := 50000, tp := 55000, sl := 48000, referrer := none,
    orderType := "stop", maxSlippageP := 1 }

/-- Concrete fixture: a trade input whose `orderType` string names an
inherited `Object.prototype` member. -/
def fixProtoOrderInput : TradeInput :=
  { pair := "BTC/USD", isLong := true, collateralInTrade := 100, leverage := 10,
    openPrice := 50000, tp := 55000, sl := 48000, referrer := none,
    orderType := "toString", maxSlippageP := 1 }

/-- Concrete fixture: snapshot reads with one pair in group 0 and an
empty depth map — the depth fetch for pair 0 failed, so its entry is
absent from the depth read. -/
def fixDepthReads : SnapshotReads :=
  { pairs := .ok [(0, mkPairInfo fixRaw0)]
    groupIndexes := .ok [0]
    assetOI := .ok []
    categoryOI := .ok []
    assetUtilization := .ok []
    categoryUtilization := .ok []
    assetSkew := .ok []
    categorySkew := .ok []
    blendedUtilization := .ok []
    blendedSkew := .ok []
    fees := .ok []
    depth := .ok [] }

/-- Concrete fixture: the pair data that `fixDepthReads` produces for
pair 0 — every map-backed metric absent, but depth present with zero
defaults. -/
def fixDepthPairData : PairData :=
  { pairInfo := mkPairInfo fixRaw0
    openInterest := none
    utilization := none
    skew := none
    fee := none
    depth := some { onePercentDepthAboveUsdc := 0, onePercentDepthBelowUsdc := 0 }
    spread := some (mkPairInfo fixRaw0).spread.min }

/-- Concrete fixture: the single group of the snapshot built from
`fixDepthReads`. -/
def fixDepthGroup : SnapshotGroup :=
  { groupIndex := 0
    pairs := [(pairName (mkPairInfo fixRaw0), fixDepthPairData)]
    openInterest := none
    utilization := none
    skew := none }

/-- Concrete fixture: the snapshot built from `fixDepthReads`. -/
def fixDepthSnapshot : Snapshot :=
  { groups := [("group_" ++ toString 0, fixDepthGroup)] }

theorem jsMapGet_jsMapSet {α β : Type} [DecidableEq α] (l : List (α × β)) (k q : α)
    (v : β) :
    jsMapGet (jsMapSet l k v) q = if k = q then some v else jsMapGet l q := by
  induction l with
  | nil => simp [jsMapSet, jsMapGet]
  | cons hd tl ih =>
    obtain ⟨k', v'⟩ := hd
    by_cases h1 : k' = k
    · subst h1
      by_cases h2 : k' = q <;> simp [jsMapSet, jsMapGet, h2]
    · by_cases h2 : k' = q
      · subst h2
        have hkq : ¬k = k' := fun h => h1 h.symm
        simp [jsMapSet, jsMapGet, h1, hkq]
      · simp [jsMapSet, jsMapGet, h1, h2, ih]

theorem jsMapSet_of_not_mem {α β : Type} [DecidableEq α] (l : List (α × β)) (k : α)
    (v : β) (h : k ∉ l.map Prod.fst) : jsMapSet l k v = l ++ [(k, v)] := by
  induction l with
  | nil => simp [jsMapSet]
  | cons hd tl ih =>
    obtain ⟨k', v'⟩ := hd
    simp only [List.map_cons, List.mem_cons] at h
    push_neg at h
    have hne : k' ≠ k := fun hk => h.1 hk.symm
    simp [jsMapSet, hne, ih h.2]

theorem keys_jsMapSet {α β : Type} [DecidableEq α] :
    ∀ (l : List (α × β)) (k : α) (v : β),
      (jsMapSet l k v).map Prod.fst =
        if k ∈ l.map Prod.fst then l.map Prod.fst else l.map Prod.fst ++ [k] := by
  intro l
  induction l with
  | nil => simp [jsMapSet]
  | cons hd tl ih =>
    intro k v
    obtain ⟨k', v'⟩ := hd
    by_cases h1 : k' = k
    · subst h1
      simp [jsMapSet]
    · have hne : ¬k = k' := fun h => h1 h.symm
      by_cases hmem : k ∈ tl.map Prod.fst <;>
        simp [jsMapSet, h1, hne, hmem, ih k v]

theorem keys_jsMapSet_nodup {α β : Type} [DecidableEq α] (l : List (α × β)) (k : α)
    (v : β) (h : (l.map Prod.fst).Nodup) : ((jsMapSet l k v).map Prod.fst).Nodup := by
  rw [keys_jsMapSet]
  by_cases hmem : k ∈ l.map Prod.fst
  · simpa [hmem] using h
  · simp only [hmem, if_false]
    exact List.Nodup.append h (List.nodup_singleton k)
      (by simpa [List.disjoint_singleton] using hmem)

theorem foldl_jsMapSet_eq_append {α β : Type} [DecidableEq α] :
    ∀ (l acc : List (α × β)), (l.map Prod.fst).Nodup →
      (∀ k ∈ l.map Prod.fst, k ∉ acc.map Prod.fst) →
      l.foldl (fun a e => jsMapSet a e.1 e.2) acc = acc ++ l := by
  intro l
  induction l with
  | nil => simp
  | cons hd tl ih =>
    intro acc hnd hdisj
    obtain ⟨k, v⟩ := hd
    simp only [List.map_cons, List.nodup_cons] at hnd
    have hk : k ∉ acc.map Prod.fst := hdisj k (by simp)
    have hstep : jsMapSet acc k v = acc ++ [(k, v)] := jsMapSet_of_not_mem acc k v hk
    have hdisj' : ∀ q ∈ tl.map Prod.fst, q ∉ (acc ++ [(k, v)]).map Prod.fst := by
      intro q hq
      simp only [List.map_append, List.mem_append, List.map_cons, List.map_nil,
        List.mem_singleton]
      push_neg
      exact ⟨hdisj q (by simp [hq]), fun h => hnd.1 (h ▸ hq)⟩
    calc ((k, v) :: tl).foldl (fun a e => jsMapSet a e.1 e.2) acc
        = tl.foldl (fun a e => jsMapSet a e.1 e.2) (acc ++ [(k, v)]) := by
          simp [List.foldl_cons, hstep]
      _ = (acc ++ [(k, v)]) ++ tl := ih (acc ++ [(k, v)]) hnd.2 hdisj'
      _ = acc ++ ((k, v) :: tl) := by simp

theorem foldl_jsMapSet_eq_self {α β : Type} [DecidableEq α] (l : List (α × β))
    (h : (l.map Prod.fst).Nodup) :
    l.foldl (fun a e => jsMapSet a e.1 e.2) [] = l := by
  simpa using foldl_jsMapSet_eq_append l [] h (by simp)

theorem jsMapGet_of_mem {α β : Type} [DecidableEq α] :
    ∀ (l : List (α × β)) (k : α) (v : β), (l.map Prod.fst).Nodup → (k, v) ∈ l →
      jsMapGet l k = some v := by
  intro l
  induction l with
  | nil => simp
  | cons hd tl ih =>
    intro k v hnd hmem
    obtain ⟨k', v'⟩ := hd
    simp only [List.map_cons, List.nodup_cons] at hnd
    rcases List.mem_cons.mp hmem with heq | hmem'
    · obtain ⟨h1, h2⟩ := Prod.mk.injEq .. ▸ heq
      subst h1; subst h2
      simp [jsMapGet]
    · have hne : k' ≠ k := by
        intro h
        subst h
        exact hnd.1 (by simpa using List.mem_map_of_mem Prod.fst hmem')
      simp [jsMapGet, hne, ih k v hnd.2 hmem']

theorem jsMapGet_eq_none_iff {α β : Type} [DecidableEq α] :
    ∀ (l : List (α × β)) (k : α), jsMapGet l k = none ↔ k ∉ l.map Prod.fst := by
  intro l
  induction l with
  | nil => simp [jsMapGet]
  | cons hd tl ih =>
    intro k
    obtain ⟨k', v'⟩ := hd
    by_cases h : k' = k
    · simp [jsMapGet, h]
    · have : ¬k = k' := fun hk => h hk.symm
      simp [jsMapGet, h, ih, this]

theorem foldl_jsMapSet_map_eq {α β γ : Type} [DecidableEq α] (f : β → γ)
    (l : List (α × β)) (h : (l.map Prod.fst).Nodup) :
    l.foldl (fun a e => jsMapSet a e.1 (f e.2)) [] = l.map (fun e => (e.1, f e.2)) := by
  have hmap := List.foldl_map (fun e : α × β => (e.1, f e.2))
    (fun (a : List (α × γ)) (e : α × γ) => jsMapSet a e.1 e.2) l []
  have hkeys : ((l.map (fun e : α × β => (e.1, f e.2))).map Prod.fst).Nodup := by
    simpa [List.map_map, Function.comp] using h
  have := foldl_jsMapSet_eq_self (l.map (fun e : α × β => (e.1, f e.2))) hkeys
  rw [hmap] at this
  exact this

theorem jsMapGet_map_value {α β γ : Type} [DecidableEq α] (f : β → γ) :
    ∀ (l : List (α × β)) (k : α),
      jsMapGet (l.map (fun e => (e.1, f e.2))) k = (jsMapGet l k).map f := by
  intro l
  induction l with
  | nil => simp [jsMapGet]
  | cons hd tl ih =>
    intro k
    obtain ⟨k', v'⟩ := hd
    by_cases h : k' = k <;> simp [jsMapGet, h, ih]

theorem getOI_keys_nodup (o : CategoryOracle) (gis : List Nat) :
    ((getOI o gis).map Prod.fst).Nodup := by
  suffices h : ∀ (l : List Nat) (acc : List (Nat × OpenInterest)),
      (acc.map Prod.fst).Nodup →
      ((l.foldl (fun oi groupIndex =>
        match o.groupOI groupIndex 0 with
        | .error _ => oi
        | .ok groupOILong =>
          match o.groupOI groupIndex 1 with
          | .error _ => oi
          | .ok groupOIShort =>
            let limits := getOILimits o gis
            let maxOI := jsOrRat ((jsMapGet limits groupIndex).map OpenInterest.max) 0
            jsMapSet oi groupIndex
              { long := fromBlockchain6 groupOILong
                short := fromBlockchain6 groupOIShort
                max := maxOI }) acc).map Prod.fst).Nodup by
    exact h gis [] (by simp)
  intro l
  induction l with
  | nil => intro acc hacc; simpa using hacc
  | cons g tl ih =>
    intro acc hacc
    simp only [List.foldl_cons]
    apply ih
    cases h0 : o.groupOI g 0 with
    | error e => simpa [h0] using hacc
    | ok long =>
      cases h1 : o.groupOI g 1 with
      | error e => simpa [h0, h1] using hacc
      | ok short => simpa [h0, h1] using keys_jsMapSet_nodup acc g _ hacc

theorem getOI_absent_of_fail (o : CategoryOracle) (gis : List Nat) (g : Nat)
    (e : String) (h : o.groupOI g 0 = .error e) :
    jsMapGet (getOI o gis) g = none := by
  suffices hgen : ∀ (l : List Nat) (acc : List (Nat × OpenInterest)),
      jsMapGet acc g = none →
      jsMapGet (l.foldl (fun oi groupIndex =>
        match o.groupOI groupIndex 0 with
        | .error _ => oi
        | .ok groupOILong =>
          match o.groupOI groupIndex 1 with
          | .error _ => oi
          | .ok groupOIShort =>
            let limits := getOILimits o gis
            let maxOI := jsOrRat ((jsMapGet limits groupIndex).map OpenInterest.max) 0
            jsMapSet oi groupIndex
              { long := fromBlockchain6 groupOILong
                short := fromBlockchain6 groupOIShort
                max := maxOI }) acc) g = none by
    exact hgen gis [] (by simp [jsMapGet])
  intro l
  induction l with
  | nil => intro acc hacc; simpa using hacc
  | cons g' tl ih =>
    intro acc hacc
    simp only [List.foldl_cons]
    apply ih
    by_cases hg : g' = g
    · subst hg
      simp [h]
      exact hacc
    · cases h0 : o.groupOI g' 0 with
      | error e' => simpa [h0] using hacc
      | ok long =>
        cases h1 : o.groupOI g' 1 with
        | error e' => simpa [h0, h1] using hacc
        | ok short =>
          simp only [h0, h1]
          rw [jsMapGet_jsMapSet]
          simp [hg, hacc]

/-- Claim C4: for every open-interest entry produced by `getOI`, the
derived utilization is `side / max * 100` when `max > 0` and `0` when
`max = 0`; the derived skew is `long / (long + short)` when the total
is positive and `1/2` when it is zero; and for non-negative `long` and
`short` the skew lies in `[0, 1]`. -/
theorem getOI_derived_metrics (o : CategoryOracle) (gis : List Nat) (g : Nat)
    (d : OpenInterest) (h : jsMapGet (getOI o gis) g = some d) :
    ∃ u s, jsMapGet (getUtilization (getOI o gis)) g = some u ∧
      jsMapGet (getCategorySkew (getOI o gis)) g = some s ∧
      (0 < d.max → u.utilizationLong = d.long / d.max * 100 ∧
        u.utilizationShort = d.short / d.max * 100) ∧
      (d.max = 0 → u.utilizationLong = 0 ∧ u.utilizationShort = 0) ∧
      (0 < d.long + d.short → s.skew = d.long / (d.long + d.short)) ∧
      (d.long + d.short = 0 → s.skew = 1 / 2) ∧
      (0 ≤ d.long → 0 ≤ d.short → 0 ≤ s.skew ∧ s.skew ≤ 1) := by
  have hnd := getOI_keys_nodup o gis
  refine ⟨utilizationOf d, skewOf d, ?_, ?_, ?_, ?_, ?_, ?_, ?_⟩
  · unfold getUtilization
    rw [foldl_jsMapSet_map_eq utilizationOf (getOI o gis) hnd,
      jsMapGet_map_value utilizationOf (getOI o gis) g, h]
    rfl
  · unfold getCategorySkew
    rw [foldl_jsMapSet_map_eq skewOf (getOI o gis) hnd,
      jsMapGet_map_value skewOf (getOI o gis) g, h]
    rfl
  · intro hmax
    constructor <;> simp [utilizationOf, hmax]
  · intro hmax
    constructor <;> simp [utilizationOf, hmax]
  · intro htot
    simp [skewOf, htot]
  · intro htot
    simp [skewOf, htot, lt_irrefl]
  · intro hlong hshort
    by_cases htot : 0 < d.long + d.short
    · have hs : skewOf d = ⟨d.long / (d.long + d.short)⟩ := by simp [skewOf, htot]
      rw [hs]
      constructor
      · exact div_nonneg hlong (le_of_lt htot)
      · rw [div_le_one htot]
        exact le_add_of_nonneg_right hshort
    · have hs : skewOf d = ⟨1 / 2⟩ := by simp [skewOf, htot]
      rw [hs]
      norm_num

/-- Witness for C4 at a concrete oracle: group 0 has OI
`{long 3, short 1, max 10}`, so the hypotheses of the theorem hold there. -/
theorem getOI_derived_metrics_witness :
    ∃ u s,
      jsMapGet (getUtilization (getOI fixCategoryOracle [0])) 0 = some u ∧
      jsMapGet (getCategorySkew (getOI fixCategoryOracle [0])) 0 = some s ∧
      (0 < (10 : ℚ) → u.utilizationLong = 3 / 10 * 100 ∧
        u.utilizationShort = 1 / 10 * 100) ∧
      ((10 : ℚ) = 0 → u.utilizationLong = 0 ∧ u.utilizationShort = 0) ∧
      (0 < (3 : ℚ) + 1 → s.skew = 3 / (3 + 1)) ∧
      ((3 : ℚ) + 1 = 0 → s.skew = 1 / 2) ∧
      (0 ≤ (3 : ℚ) → 0 ≤ (1 : ℚ) → 0 ≤ s.skew ∧ s.skew ≤ 1) :=
  getOI_derived_metrics fixCategoryOracle [0] 0
    { long := 3, short := 1, max := 10 } (by decide)

/-- Counterexample to C6 as stated: at the negative display value
`v = -1/(2 * 10^10)`, the round-trip `fromBlockchain10 ∘ toBlockchain10`
yields `-10^-10` (floor rounds toward negative infinity), while `v`
truncated toward zero to 10 decimal places is `0`. -/
theorem decimal_roundtrip_counterexample :
    fromBlockchain10 (toBlockchain10 (-(1 / 20000000000 : ℚ))) = -(1 / 10 ^ 10) ∧
    truncToDecimals 10 (-(1 / 20000000000 : ℚ)) = 0 ∧
    fromBlockchain10 (toBlockchain10 (-(1 / 20000000000 : ℚ))) ≠
      truncToDecimals 10 (-(1 / 20000000000 : ℚ)) := by
  refine ⟨by decide, by decide, by decide⟩

theorem floor_div_le {v d : ℚ} (hd : 0 < d) : (⌊v * d⌋ : ℚ) / d ≤ v := by
  rw [div_le_iff₀ hd]
  exact Int.floor_le (v * d)

theorem lt_floor_div_add {v d : ℚ} (hd : 0 < d) : v < (⌊v * d⌋ : ℚ) / d + 1 / d := by
  rw [div_add_div_same, lt_div_iff₀ hd]
  exact Int.lt_floor_add_one (v * d)

theorem floor_div_idem {v d : ℚ} (hd : d ≠ 0) :
    (⌊((⌊v * d⌋ : ℚ) / d) * d⌋ : ℚ) / d = (⌊v * d⌋ : ℚ) / d := by
  rw [div_mul_cancel₀ _ hd, Int.floor_intCast]

/-- Claim C6 (amended): for every display value `v` and width
`n ∈ {6, 10}`, `fromBlockchain_n (toBlockchain_n v)` is `v` rounded
*down* (toward negative infinity) to `n` decimal places: it is the
largest representable value not exceeding `v`, within `10^-n` of it;
for non-negative `v` this coincides with truncation toward zero; and
the round-trip is idempotent, so repeated conversion accumulates no
drift. -/
theorem decimal_roundtrip (v : ℚ) :
    (fromBlockchain10 (toBlockchain10 v) ≤ v ∧
      v < fromBlockchain10 (toBlockchain10 v) + 1 / 10 ^ 10 ∧
      (0 ≤ v → fromBlockchain10 (toBlockchain10 v) = truncToDecimals 10 v) ∧
      fromBlockchain10 (toBlockchain10 (fromBlockchain10 (toBlockchain10 v))) =
        fromBlockchain10 (toBlockchain10 v)) ∧
    (fromBlockchain6 (toBlockchain6 v) ≤ v ∧
      v < fromBlockchain6 (toBlockchain6 v) + 1 / 10 ^ 6 ∧
      (0 ≤ v → fromBlockchain6 (toBlockchain6 v) = truncToDecimals 6 v) ∧
      fromBlockchain6 (toBlockchain6 (fromBlockchain6 (toBlockchain6 v))) =
        fromBlockchain6 (toBlockchain6 v)) := by
  have h10 : (0 : ℚ) < 10 ^ 10 := by norm_num
  have h6 : (0 : ℚ) < 10 ^ 6 := by norm_num
  refine ⟨⟨floor_div_le h10, lt_floor_div_add h10, ?_, ?_⟩,
    ⟨floor_div_le h6, lt_floor_div_add h6, ?_, ?_⟩⟩
  · intro hv
    have hnn : (0 : ℚ) ≤ v * 10 ^ 10 := mul_nonneg hv (le_of_lt h10)
    simp only [fromBlockchain10, toBlockchain10, truncToDecimals, truncTowardZero]
    rw [if_pos hnn]
  · exact floor_div_idem (by norm_num)
  · intro hv
    have hnn : (0 : ℚ) ≤ v * 10 ^ 6 := mul_nonneg hv (le_of_lt h6)
    simp only [fromBlockchain6, toBlockchain6, truncToDecimals, truncTowardZero]
    rw [if_pos hnn]
  · exact floor_div_idem (by norm_num)

/-- Witness for C6 (amended) at `v = 1/4`: the round-trip agrees with
toward-zero truncation for this non-negative value at both widths. -/
theorem decimal_roundtrip_witness :
    fromBlockchain10 (toBlockchain10 (1 / 4 : ℚ)) = truncToDecimals 10 (1 / 4 : ℚ) ∧
    fromBlockchain6 (toBlockchain6 (1 / 4 : ℚ)) = truncToDecimals 6 (1 / 4 : ℚ) :=
  ⟨(decimal_roundtrip (1 / 4)).1.2.2.1 (by decide),
    (decimal_roundtrip (1 / 4)).2.2.2.1 (by decide)⟩

/-- Counterexample to C10 as stated: `"toString"` is not one of the
four recognized order types, yet `buildTradeOpenTx` neither succeeds
nor encodes order type 0 at it: the object-literal lookup returns the
inherited `Object.prototype.toString` member, which is truthy, so
`|| 0` passes it through and the `uint` encoding of the non-number
throws — the build fails instead of producing a market order. -/
theorem buildTradeOpenTx_proto_orderType_counterexample :
    "toString" ∉ ["market", "limit", "stop_limit", "market_zero_fee"] ∧
    getOrderTypeValue "toString" = .protoMember "toString" ∧
    buildTradeOpenTx fixPairIndexOf 0 fixProtoOrderInput =
      .error "invalid BigNumberish value" := by
  refine ⟨by decide, by decide, by rfl⟩

/-- Claim C10 (amended): for a trade input whose `orderType` string is
not one of the four recognized values and whose pair resolves:
when the string is also not the name of an inherited
`Object.prototype` member, `buildTradeOpenTx` does not fail and
silently encodes order type 0 (a market order); when it does name an
inherited member (`toString`, `valueOf`, `hasOwnProperty`, ...), the
record lookup yields that truthy member, `|| 0` keeps it, and the
build fails while encoding it as a `uint`. -/
theorem buildTradeOpenTx_unknown_orderType (pairIndexOf : String → Option Nat)
    (executionFee : Int) (tradeInput : TradeInput) (i : Nat)
    (hot : tradeInput.orderType ∉ ["market", "limit", "stop_limit", "market_zero_fee"])
    (hp : pairIndexOf tradeInput.pair = some i) :
    (tradeInput.orderType ∉ objectProtoKeys →
      ∃ tx, buildTradeOpenTx pairIndexOf executionFee tradeInput = .ok tx ∧
        tx.orderType = 0 ∧ getOrderTypeValue tradeInput.orderType = .num 0) ∧
    (tradeInput.orderType ∈ objectProtoKeys →
      buildTradeOpenTx pairIndexOf executionFee tradeInput =
        .error "invalid BigNumberish value") := by
  have hnone : jsMapGet
      [("market", 0), ("limit", 1), ("stop_limit", 2), ("market_zero_fee", 3)]
      tradeInput.orderType = none := by
    rw [jsMapGet_eq_none_iff]
    simpa using hot
  have hred : getOrderTypeValue tradeInput.orderType =
      (if tradeInput.orderType ∈ objectProtoKeys then
        JsNumOrMember.protoMember tradeInput.orderType
      else JsNumOrMember.num 0) := by
    show (match jsMapGet
        [("market", 0), ("limit", 1), ("stop_limit", 2), ("market_zero_fee", 3)]
        tradeInput.orderType with
      | some n => JsNumOrMember.num (jsOrNat (some n) 0)
      | none =>
        if tradeInput.orderType ∈ objectProtoKeys then
          JsNumOrMember.protoMember tradeInput.orderType
        else JsNumOrMember.num 0) = _
    rw [hnone]
  constructor
  · intro hproto
    have hz : getOrderTypeValue tradeInput.orderType = .num 0 := by
      rw [hred, if_neg hproto]
    unfold buildTradeOpenTx
    rw [hp, hz]
    exact ⟨_, rfl, rfl, rfl⟩
  · intro hproto
    have hm : getOrderTypeValue tradeInput.orderType =
        .protoMember tradeInput.orderType := by
      rw [hred, if_pos hproto]
    unfold buildTradeOpenTx
    rw [hp, hm]

/-- Witness for C10 (amended) at concrete inputs: `orderType = "stop"`
(unrecognized, not a prototype member) yields a market-order
transaction, while `orderType = "toString"` (unrecognized, a prototype
member) makes the build fail. -/
theorem buildTradeOpenTx_unknown_orderType_witness :
    (∃ tx, buildTradeOpenTx fixPairIndexOf 0 fixStrayOrderInput = .ok tx ∧
      tx.orderType = 0 ∧ getOrderTypeValue fixStrayOrderInput.orderType = .num 0) ∧
    buildTradeOpenTx fixPairIndexOf 0 fixProtoOrderInput =
      .error "invalid BigNumberish value" :=
  ⟨(buildTradeOpenTx_unknown_orderType fixPairIndexOf 0 fixStrayOrderInput 0
      (by decide) (by decide)).1 (by decide),
    (buildTradeOpenTx_unknown_orderType fixPairIndexOf 0 fixProtoOrderInput 0
      (by decide) (by decide)).2 (by decide)⟩

/-- Claim C3 is contradicted by the code: a deliberate
`FeedClient.close()` leads to the `close` event of the socket, whose handler
(feed_client.ts lines 474-482) calls `attemptReconnect` unconditionally
— `close()` neither detaches the handler nor sets any flag — so in the
fresh client state a reconnection attempt *is* scheduled (after the
base delay of 1000 ms) even for a deliberate close. -/
theorem close_event_schedules_reconnect :
    (closeEventHandler initFeedClientState).2 = some 1000 ∧
    (closeEventHandler initFeedClientState).1.reconnectAttempts = 1 := by
  exact ⟨by decide, by decide⟩

/-- Counterexample to C7 as stated: in a state where feed `"a"` was
registered and then unregistered (so it has no registered observer but
still an empty entry in the callback map), the open handler sends a
subscribe message for `"a"` anyway. -/
theorem open_resubscribes_observerless_feed :
    (openHandler fixEmptiedFeedState).2 = some ["a"] ∧
    jsMapGet fixEmptiedFeedState.callbacks "a" = some ([] : List Nat) := by
  exact ⟨by decide, by decide⟩

/-- Claim C7 (amended): on a successful open the reconnect counter is
reset to zero and, when the callback map is non-empty, one subscribe
message is sent for exactly the key set of the callback map — every
feed identifier that has ever been registered, including identifiers
whose observer lists have since been emptied by unregistration; when
the map is empty no subscribe message is sent. -/
theorem open_resets_counter_and_resubscribes (st : FeedClientState) :
    (openHandler st).1.reconnectAttempts = 0 ∧
    (openHandler st).1.callbacks = st.callbacks ∧
    (openHandler st).2 =
      (if st.callbacks.map Prod.fst = [] then none
        else some (st.callbacks.map Prod.fst)) := by
  refine ⟨rfl, rfl, ?_⟩
  unfold openHandler
  by_cases h : st.callbacks.map Prod.fst = []
  · simp [h]
  · have hcb : st.callbacks ≠ [] := by
      intro hc
      exact h (by simp [hc])
    have hpos : 0 < (st.callbacks.map Prod.fst).length :=
      List.length_pos.mpr h
    simp [h, hpos, hcb]

theorem attemptReconnect_below (st : FeedClientState)
    (h : st.reconnectAttempts < st.maxReconnectAttempts) :
    attemptReconnect st =
      ({ st with reconnectAttempts := st.reconnectAttempts + 1 },
        some (st.reconnectDelay * 2 ^ st.reconnectAttempts)) := by
  unfold attemptReconnect
  rw [if_neg (Nat.not_le.mpr h)]
  simp

theorem processCloseEvents_schedule (cbs : List (String × List Nat)) :
    ∀ (n a : Nat), a ≤ 5 →
      processCloseEvents ⟨a, 5, 1000, cbs⟩ n =
        (⟨min 5 (a + n), 5, 1000, cbs⟩,
          (List.range (min n (5 - a))).map (fun k => 1000 * 2 ^ (a + k))) := by
  intro n
  induction n with
  | zero =>
    intro a ha
    simp [processCloseEvents, Nat.min_eq_right ha]
  | succ m ih =>
    intro a ha
    by_cases hlt : a < 5
    · have hstep : closeEventHandler ⟨a, 5, 1000, cbs⟩ =
          (⟨a + 1, 5, 1000, cbs⟩, some (1000 * 2 ^ a)) := by
        show attemptReconnect ⟨a, 5, 1000, cbs⟩ = _
        rw [attemptReconnect_below ⟨a, 5, 1000, cbs⟩ hlt]
      simp only [processCloseEvents, hstep]
      rw [ih (a + 1) (by omega)]
      have h1 : a + 1 + m = a + (m + 1) := by omega
      have h2 : min (m + 1) (5 - a) = min m (5 - (a + 1)) + 1 := by omega
      rw [h1, h2, List.range_succ_eq_map]
      have hf : ∀ k, 1000 * 2 ^ (a + (k + 1)) = 1000 * 2 ^ (a + 1 + k) := by
        intro k
        have : a + (k + 1) = a + 1 + k := by omega
        rw [this]
      simp [List.map_map, Function.comp, hf]
    · have ha5 : a = 5 := by omega
      subst ha5
      have hstep : closeEventHandler ⟨5, 5, 1000, cbs⟩ = (⟨5, 5, 1000, cbs⟩, none) := by
        show attemptReconnect ⟨5, 5, 1000, cbs⟩ = _
        unfold attemptReconnect
        rw [if_pos (le_refl 5)]
      simp only [processCloseEvents, hstep]
      rw [ih 5 (le_refl 5)]
      simp

/-- Claim C8: reconnection attempt `k` (1-based) is scheduled after
`1000 * 2^(k-1)` ms with the counter incremented once per try; for `N`
consecutive close events with `N ≤ 5` there are exactly `N` attempts
with the strictly doubling delays `1000, 2000, 4000, ...` and the
counter ends at `N`; once the counter has reached the maximum,
`attemptReconnect` schedules nothing; and for `N ≥ 5` close events the
schedule stops at the five capped attempts. -/
theorem reconnect_backoff_schedule (N : Nat) (st : FeedClientState) :
    (N ≤ 5 →
      (processCloseEvents initFeedClientState N).2 =
        (List.range N).map (fun k => 1000 * 2 ^ k) ∧
      (processCloseEvents initFeedClientState N).1.reconnectAttempts = N) ∧
    (st.maxReconnectAttempts ≤ st.reconnectAttempts →
      attemptReconnect st = (st, none)) ∧
    (5 ≤ N →
      (processCloseEvents initFeedClientState N).2 =
        (List.range 5).map (fun k => 1000 * 2 ^ k)) := by
  have hinit : initFeedClientState = ⟨0, 5, 1000, []⟩ := rfl
  have hrun := processCloseEvents_schedule [] N 0 (by omega)
  refine ⟨?_, ?_, ?_⟩
  · intro hN
    rw [hinit, hrun]
    constructor
    · have hmin : min N (5 - 0) = N := by omega
      simp [hmin]
    · have hmin : min 5 (0 + N) = N := by omega
      simp [hmin]
      omega
  · intro h
    unfold attemptReconnect
    rw [if_pos h]
  · intro hN
    rw [hinit, hrun]
    have hmin : min N (5 - 0) = 5 := by omega
    simp [hmin]

/-- Witness for C8: three close events yield exactly the delays
1000, 2000, 4000 ms and counter 3; a client at the cap schedules
nothing; seven close events still yield only the five capped delays. -/
theorem reconnect_backoff_schedule_witness :
    (processCloseEvents initFeedClientState 3).2 = [1000, 2000, 4000] ∧
    (processCloseEvents initFeedClientState 3).1.reconnectAttempts = 3 ∧
    attemptReconnect ⟨7, 5, 1000, []⟩ = (⟨7, 5, 1000, []⟩, none) ∧
    (processCloseEvents initFeedClientState 7).2 =
      [1000, 2000, 4000, 8000, 16000] := by
  have h3 := (reconnect_backoff_schedule 3 ⟨7, 5, 1000, []⟩).1 (by decide)
  have hcap := (reconnect_backoff_schedule 3 ⟨7, 5, 1000, []⟩).2.1 (by decide)
  have h7 := (reconnect_backoff_schedule 7 ⟨7, 5, 1000, []⟩).2.2 (by decide)
  exact ⟨h3.1.trans (by decide), h3.2, hcap, h7.trans (by decide)⟩

/-- Claim C9: an inbound stream message that is not a schema-valid
price update — unparseable data, a message whose `type` is not
`price_update`, or one failing the price-feed schema — invokes no
observer callback (and the total handler takes no connection-closing
action); a schema-valid `price_update` is dispatched to exactly the
observers registered for its feed id; and schema validity is exactly
the presence of `id`, a complete `price` and a complete `emaPrice`. -/
theorem message_dispatch (cbs : List (String × List Nat)) (m : Option RawMessage) :
    ((m = none ∨
        (∀ msg, m = some msg → msg.type ≠ some "price_update") ∨
        (∀ msg, m = some msg → parsePriceFeedResponse msg = none)) →
      messageHandler cbs m = []) ∧
    (∀ msg pf, m = some msg → msg.type = some "price_update" →
      parsePriceFeedResponse msg = some pf →
      messageHandler cbs m = ((jsMapGet cbs pf.id).getD []).map (fun cb => (cb, pf))) ∧
    (∀ msg, m = some msg →
      ((parsePriceFeedResponse msg).isSome ↔
        (msg.id.isSome ∧
          (∃ p, msg.price = some p ∧ p.price.isSome ∧ p.conf.isSome ∧
            p.expo.isSome ∧ p.publishTime.isSome) ∧
          (∃ q, msg.emaPrice = some q ∧ q.price.isSome ∧ q.conf.isSome ∧
            q.expo.isSome ∧ q.publishTime.isSome)))) := by
  refine ⟨?_, ?_, ?_⟩
  · rintro (h | h | h)
    · subst h; rfl
    · cases m with
      | none => rfl
      | some msg => simp [messageHandler, h msg rfl]
    · cases m with
      | none => rfl
      | some msg =>
        by_cases ht : msg.type = some "price_update"
        · simp [messageHandler, ht, handlePriceUpdate, h msg rfl]
        · simp [messageHandler, ht]
  · rintro msg pf rfl ht hp
    simp [messageHandler, ht, handlePriceUpdate, hp]
  · rintro msg rfl
    obtain ⟨ty, oid, opr, oem⟩ := msg
    cases oid with
    | none => simp [parsePriceFeedResponse]
    | some id =>
      cases opr with
      | none => simp [parsePriceFeedResponse]
      | some pr =>
        cases oem with
        | none => simp [parsePriceFeedResponse]
        | some em =>
          obtain ⟨p1, p2, p3, p4⟩ := pr
          obtain ⟨q1, q2, q3, q4⟩ := em
          cases p1 <;> cases p2 <;> cases p3 <;> cases p4 <;>
            cases q1 <;> cases q2 <;> cases q3 <;> cases q4 <;>
            simp [parsePriceFeedResponse, parsePrice]

/-- Witness for C9: the malformed fixture message (missing `conf`)
dispatches to no observer, while the valid fixture message dispatches
exactly to the observer of feed `"f1"`. -/
theorem message_dispatch_witness :
    messageHandler fixCallbacks (some fixBadMessage) = [] ∧
    messageHandler fixCallbacks (some fixGoodMessage) = [(7, fixGoodPayload)] := by
  constructor
  · exact (message_dispatch fixCallbacks (some fixBadMessage)).1
      (Or.inr (Or.inr (fun msg h => by
        injection h with h2
        subst h2
        decide)))
  · have h := (message_dispatch fixCallbacks (some fixGoodMessage)).2.1
      fixGoodMessage fixGoodPayload rfl (by decide) (by decide)
    exact h.trans (by decide)

theorem except_bind_error {ε α β : Type} (e : ε) (f : α → Except ε β) :
    (Except.error e >>= f) = Except.error e := rfl

theorem except_bind_ok {ε α β : Type} (a : α) (f : α → Except ε β) :
    (Except.ok a >>= f : Except ε β) = f a := rfl

/-- Counterexample to C2 as stated: with one pair in group 0 and the
per-pair depth fetch failed (the depth map has no entry for pair 0),
the build still succeeds, and the depth field of that pair is not
absent: it is present with zero defaults (snapshot.ts lines 99-102
always build the depth object via `|| 0`), refuting the claim that a
failed per-pair metric fetch leaves the metric field absent. -/
theorem snapshot_depth_present_counterexample :
    getSnapshot fixDepthReads = .ok fixDepthSnapshot ∧
    ("group_" ++ toString 0, fixDepthGroup) ∈ fixDepthSnapshot.groups ∧
    (pairName (mkPairInfo fixRaw0), fixDepthPairData) ∈ fixDepthGroup.pairs ∧
    jsMapGet ([] : List (Nat × DepthEntry)) 0 = none ∧
    fixDepthPairData.depth =
      some { onePercentDepthAboveUsdc := 0, onePercentDepthBelowUsdc := 0 } := by
  refine ⟨by rfl, by decide, by decide, by rfl, by rfl⟩

/-- Claim C2 (amended): `getSnapshot` fails as a whole whenever any one
of its twelve aggregator-level reads fails (proved as: a successful
build implies all twelve reads returned `ok`); a per-entity failure
inside an aggregator does not fail the build — a group whose
open-interest fetch failed inside the category aggregator is simply
missing from its map — and in a successful build every map-backed
metric field (group `openInterest`/`utilization`/`skew`, pair
`openInterest`/`utilization`/`skew`/`fee`) is exactly the lookup of the
corresponding read, hence absent (`undefined`) precisely when the
entity is missing from that read; the per-pair `depth` field however
is always present, defaulting a missing depth entry to zeros. -/
theorem getSnapshot_failure_semantics (r : SnapshotReads) (s : Snapshot)
    (o : CategoryOracle) (gis2 : List Nat) (g : Nat) (e : String) :
    ((∃ s', getSnapshot r = .ok s') →
      ((∃ x, r.pairs = .ok x) ∧ (∃ x, r.groupIndexes = .ok x) ∧
        (∃ x, r.assetOI = .ok x) ∧ (∃ x, r.categoryOI = .ok x) ∧
        (∃ x, r.assetUtilization = .ok x) ∧ (∃ x, r.categoryUtilization = .ok x) ∧
        (∃ x, r.assetSkew = .ok x) ∧ (∃ x, r.categorySkew = .ok x) ∧
        (∃ x, r.blendedUtilization = .ok x) ∧ (∃ x, r.blendedSkew = .ok x) ∧
        (∃ x, r.fees = .ok x) ∧ (∃ x, r.depth = .ok x))) ∧
    (o.groupOI g 0 = .error e → jsMapGet (getOI o gis2) g = none) ∧
    (∀ pairs gis assetOI categoryOI assetUtil categoryUtil assetSkew
        categorySkew blendedUtil blendedSkew fees depth,
      r.pairs = .ok pairs → r.groupIndexes = .ok gis →
      r.assetOI = .ok assetOI → r.categoryOI = .ok categoryOI →
      r.assetUtilization = .ok assetUtil → r.categoryUtilization = .ok categoryUtil →
      r.assetSkew = .ok assetSkew → r.categorySkew = .ok categorySkew →
      r.blendedUtilization = .ok blendedUtil → r.blendedSkew = .ok blendedSkew →
      r.fees = .ok fees → r.depth = .ok depth →
      getSnapshot r = .ok s →
      ∀ g2, g2 ∈ gis →
        ∃ grp, ("group_" ++ toString g2, grp) ∈ s.groups ∧
          grp.openInterest = jsMapGet categoryOI g2 ∧
          grp.utilization = jsMapGet categoryUtil g2 ∧
          grp.skew = jsMapGet categorySkew g2 ∧
          (∀ pairIndex p, pairIndex ∈ getPairsInGroup pairs g2 →
            jsMapGet pairs pairIndex = some p →
            ∃ pd, (pairName p, pd) ∈ grp.pairs ∧
              pd.pairInfo = p ∧
              pd.openInterest = jsMapGet assetOI pairIndex ∧
              pd.utilization = jsMapGet blendedUtil pairIndex ∧
              pd.skew = jsMapGet blendedSkew pairIndex ∧
              pd.fee = jsMapGet fees pairIndex ∧
              pd.depth.isSome = true ∧
              (jsMapGet depth pairIndex = none →
                pd.depth = some { onePercentDepthAboveUsdc := 0, onePercentDepthBelowUsdc := 0 }))) := by
  refine ⟨?_, fun hf => getOI_absent_of_fail o gis2 g e hf, ?_⟩
  · rintro ⟨s', hs⟩
    unfold getSnapshot at hs
    cases h1 : r.pairs with
    | error er => rw [h1, except_bind_error] at hs; exact Except.noConfusion hs
    | ok pairs =>
    rw [h1, except_bind_ok] at hs
    cases h2 : r.groupIndexes with
    | error er => rw [h2, except_bind_error] at hs; exact Except.noConfusion hs
    | ok gis =>
    rw [h2, except_bind_ok] at hs
    cases h3 : r.assetOI with
    | error er => rw [h3, except_bind_error] at hs; exact Except.noConfusion hs
    | ok assetOI =>
    rw [h3, except_bind_ok] at hs
    cases h4 : r.categoryOI with
    | error er => rw [h4, except_bind_error] at hs; exact Except.noConfusion hs
    | ok categoryOI =>
    rw [h4, except_bind_ok] at hs
    cases h5 : r.assetUtilization with
    | error er => rw [h5, except_bind_error] at hs; exact Except.noConfusion hs
    | ok assetUtil =>
    rw [h5, except_bind_ok] at hs
    cases h6 : r.categoryUtilization with
    | error er => rw [h6, except_bind_error] at hs; exact Except.noConfusion hs
    | ok categoryUtil =>
    rw [h6, except_bind_ok] at hs
    cases h7 : r.assetSkew with
    | error er => rw [h7, except_bind_error] at hs; exact Except.noConfusion hs
    | ok assetSkew =>
    rw [h7, except_bind_ok] at hs
    cases h8 : r.categorySkew with
    | error er => rw [h8, except_bind_error] at hs; exact Except.noConfusion hs
    | ok categorySkew =>
    rw [h8, except_bind_ok] at hs
    cases h9 : r.blendedUtilization with
    | error er => rw [h9, except_bind_error] at hs; exact Except.noConfusion hs
    | ok blendedUtil =>
    rw [h9, except_bind_ok] at hs
    cases h10 : r.blendedSkew with
    | error er => rw [h10, except_bind_error] at hs; exact Except.noConfusion hs
    | ok blendedSkew =>
    rw [h10, except_bind_ok] at hs
    cases h11 : r.fees with
    | error er => rw [h11, except_bind_error] at hs; exact Except.noConfusion hs
    | ok fees =>
    rw [h11, except_bind_ok] at hs
    cases h12 : r.depth with
    | error er => rw [h12, except_bind_error] at hs; exact Except.noConfusion hs
    | ok depth =>
    exact ⟨⟨_, rfl⟩, ⟨_, rfl⟩, ⟨_, rfl⟩, ⟨_, rfl⟩, ⟨_, rfl⟩, ⟨_, rfl⟩, ⟨_, rfl⟩,
      ⟨_, rfl⟩, ⟨_, rfl⟩, ⟨_, rfl⟩, ⟨_, rfl⟩, ⟨_, rfl⟩⟩
  · intro pairs gis assetOI categoryOI assetUtil categoryUtil assetSkew
      categorySkew blendedUtil blendedSkew fees depth
    intro h1 h2 h3 h4 h5 h6 h7 h8 h9 h10 h11 h12 hs
    unfold getSnapshot at hs
    rw [h1, except_bind_ok, h2, except_bind_ok, h3, except_bind_ok, h4,
      except_bind_ok, h5, except_bind_ok, h6, except_bind_ok, h7,
      except_bind_ok, h8, except_bind_ok, h9, except_bind_ok, h10,
      except_bind_ok, h11, except_bind_ok, h12, except_bind_ok] at hs
    have hsnap : s =
        { groups :=
            gis.map (fun groupIndex =>
              ("group_" ++ toString groupIndex,
                buildGroup pairs assetOI blendedUtil blendedSkew fees depth
                  categoryOI categoryUtil categorySkew groupIndex)) } := by
      have hthis := hs
      simp only [pure, Except.pure] at hthis
      exact (Except.ok.injEq _ _ ▸ hthis).symm
    intro g2 hg2
    refine ⟨buildGroup pairs assetOI blendedUtil blendedSkew fees depth
      categoryOI categoryUtil categorySkew g2, ?_, rfl, rfl, rfl, ?_⟩
    · rw [hsnap]
      exact List.mem_map.mpr ⟨g2, hg2, rfl⟩
    · intro pairIndex p hmemIdx hlook
      refine ⟨{
          pairInfo := p
          openInterest := jsMapGet assetOI pairIndex
          utilization := jsMapGet blendedUtil pairIndex
          skew := jsMapGet blendedSkew pairIndex
          fee := jsMapGet fees pairIndex
          depth := some {
            onePercentDepthAboveUsdc :=
              jsOrRat ((jsMapGet depth pairIndex).map DepthEntry.above) 0
            onePercentDepthBelowUsdc :=
              jsOrRat ((jsMapGet depth pairIndex).map DepthEntry.below) 0 }
          spread := some p.spread.min },
        ?_, rfl, rfl, rfl, rfl, rfl, rfl, ?_⟩
      · apply List.mem_filterMap.mpr
        refine ⟨pairIndex, hmemIdx, ?_⟩
        rw [hlook]
      · intro hdep
        rw [hdep]
        rfl

/-- Witness for C2 (amended): in `fixSnapshotReads` every aggregator
read succeeded (so all twelve are `ok`); the failed group 1 is missing
from the category OI map of `fixCategoryOracle`; and in the snapshot
built from `fixDepthReads` the map-backed fields of group 0 and its
pair equal the (empty) lookups while depth is present with zero
defaults. -/
theorem getSnapshot_failure_semantics_witness :
    ((∃ x, fixSnapshotReads.pairs = .ok x) ∧
      (∃ x, fixSnapshotReads.groupIndexes = .ok x) ∧
      (∃ x, fixSnapshotReads.assetOI = .ok x) ∧
      (∃ x, fixSnapshotReads.categoryOI = .ok x) ∧
      (∃ x, fixSnapshotReads.assetUtilization = .ok x) ∧
      (∃ x, fixSnapshotReads.categoryUtilization = .ok x) ∧
      (∃ x, fixSnapshotReads.assetSkew = .ok x) ∧
      (∃ x, fixSnapshotReads.categorySkew = .ok x) ∧
      (∃ x, fixSnapshotReads.blendedUtilization = .ok x) ∧
      (∃ x, fixSnapshotReads.blendedSkew = .ok x) ∧
      (∃ x, fixSnapshotReads.fees = .ok x) ∧
      (∃ x, fixSnapshotReads.depth = .ok x)) ∧
    jsMapGet (getOI fixCategoryOracle [1]) 1 = none ∧
    (∃ grp, ("group_" ++ toString 0, grp) ∈ fixDepthSnapshot.groups ∧
      grp.openInterest = jsMapGet ([] : List (Nat × OpenInterest)) 0 ∧
      grp.utilization = jsMapGet ([] : List (Nat × Utilization)) 0 ∧
      grp.skew = jsMapGet ([] : List (Nat × Skew)) 0 ∧
      (∀ pairIndex p, pairIndex ∈ getPairsInGroup [(0, mkPairInfo fixRaw0)] 0 →
        jsMapGet [(0, mkPairInfo fixRaw0)] pairIndex = some p →
        ∃ pd, (pairName p, pd) ∈ grp.pairs ∧
          pd.pairInfo = p ∧
          pd.openInterest = jsMapGet ([] : List (Nat × OpenInterest)) pairIndex ∧
          pd.utilization = jsMapGet ([] : List (Nat × Utilization)) pairIndex ∧
          pd.skew = jsMapGet ([] : List (Nat × Skew)) pairIndex ∧
          pd.fee = jsMapGet ([] : List (Nat × Fee)) pairIndex ∧
          pd.depth.isSome = true ∧
          (jsMapGet ([] : List (Nat × DepthEntry)) pairIndex = none →
            pd.depth = some { onePercentDepthAboveUsdc := 0, onePercentDepthBelowUsdc := 0 }))) := by
  refine ⟨?_, ?_, ?_⟩
  · exact (getSnapshot_failure_semantics fixSnapshotReads fixSnapshot
      fixCategoryOracle [1] 1 "down").1 ⟨fixSnapshot, by rfl⟩
  · exact (getSnapshot_failure_semantics fixSnapshotReads fixSnapshot
      fixCategoryOracle [1] 1 "down").2.1 rfl
  · exact (getSnapshot_failure_semantics fixDepthReads fixDepthSnapshot
      fixCategoryOracle [1] 1 "down").2.2
      [(0, mkPairInfo fixRaw0)] [0] [] [] [] [] [] [] [] [] [] []
      rfl rfl rfl rfl rfl rfl rfl rfl rfl rfl rfl rfl (by rfl) 0 (by decide)

theorem fetchPairsLoop_ok (c : PairStorageContract) :
    ∀ (r i : Nat) (ps0 : List (Nat × PairInfo)) (ns0 : List (String × Nat))
      (ps : List (Nat × PairInfo)) (ns : List (String × Nat)),
      fetchPairsLoop c ps0 ns0 i r = .ok (ps, ns) →
      ∃ fetched : List (Nat × PairInfo),
        fetched.map Prod.fst = List.range' i r ∧
        (∀ e ∈ fetched, ∃ raw, c.pairs e.1 = .ok raw ∧ e.2 = mkPairInfo raw) ∧
        ps = fetched.foldl (fun a e => jsMapSet a e.1 e.2) ps0 ∧
        ns = fetched.foldl (fun a e => jsMapSet a (pairName e.2) e.1) ns0 := by
  intro r
  induction r with
  | zero =>
    intro i ps0 ns0 ps ns h
    have h' : (Except.ok (ps0, ns0) : Except String _) = .ok (ps, ns) := h
    obtain ⟨h1, h2⟩ := Prod.mk.injEq .. ▸ Except.ok.inj h'
    subst h1
    subst h2
    exact ⟨[], by simp, by simp, by simp, by simp⟩
  | succ m ih =>
    intro i ps0 ns0 ps ns h
    rw [fetchPairsLoop] at h
    cases hc : c.pairs i with
    | error er => rw [hc] at h; exact Except.noConfusion h
    | ok raw =>
      rw [hc] at h
      obtain ⟨fetched, hkeys, hfetch, hps, hns⟩ := ih (i + 1) _ _ ps ns h
      refine ⟨(i, mkPairInfo raw) :: fetched, ?_, ?_, ?_, ?_⟩
      · simp [hkeys, List.range'_succ]
      · intro e he
        rcases List.mem_cons.mp he with rfl | he'
        · exact ⟨raw, hc, rfl⟩
        · exact hfetch e he'
      · simpa using hps
      · simpa using hns

/-- Claim C1: a `getPairsInfo` call either leaves the cache state
exactly as it was (cache hit, or any fetch failure — in which case the
error is propagated in the returned result), or it replaces the pair
map and the name-to-index map together with a fully populated catalog:
both maps become `some` in the same step, the keys of the pair map are
exactly `0..count-1`, and every pair was fetched successfully.  No
intermediate (half-populated) state is ever the result. -/
theorem getPairsInfo_atomic (c : PairStorageContract) (st : PairsCacheState)
    (forceRefresh : Bool) :
    (∀ e, (getPairsInfo c st forceRefresh).2 = .error e →
      (getPairsInfo c st forceRefresh).1 = st) ∧
    ((getPairsInfo c st forceRefresh).1 = st ∨
      ∃ ps ns count,
        (getPairsInfo c st forceRefresh).1 =
          { pairsCache := some ps, pairNameToIndexMap := some ns } ∧
        (getPairsInfo c st forceRefresh).2 = .ok ps ∧
        c.pairsCount = .ok count ∧
        ps.map Prod.fst = List.range' 0 count ∧
        (∀ i, i < count → ∃ raw, c.pairs i = .ok raw ∧ (i, mkPairInfo raw) ∈ ps)) := by
  obtain ⟨pc, pn⟩ := st
  by_cases hcache : ∃ cache, pc = some cache ∧ forceRefresh = false
  · obtain ⟨cache, hpc, hfr⟩ := hcache
    subst hpc
    subst hfr
    refine ⟨?_, Or.inl rfl⟩
    intro e he
    exact absurd he (by simp [getPairsInfo])
  · have hred : ∀ (z : PairsCacheState × Except String (List (Nat × PairInfo))),
        (match c.pairsCount with
          | .error e => ((⟨pc, pn⟩ : PairsCacheState), .error e)
          | .ok count =>
            match fetchPairsLoop c [] [] 0 count with
            | .error e => ((⟨pc, pn⟩ : PairsCacheState), .error e)
            | .ok (ps, ns) =>
              ({ pairsCache := some ps, pairNameToIndexMap := some ns }, .ok ps)) = z →
        getPairsInfo c ⟨pc, pn⟩ forceRefresh = z := by
      intro z hz
      rw [← hz]
      cases pc with
      | none => cases forceRefresh <;> rfl
      | some cache =>
        cases forceRefresh with
        | false => exact absurd ⟨cache, rfl, rfl⟩ hcache
        | true => rfl
    cases hcount : c.pairsCount with
    | error e =>
      have hfetch := hred (⟨pc, pn⟩, .error e) (by rw [hcount])
      exact ⟨fun e' _ => by rw [hfetch], Or.inl (by rw [hfetch])⟩
    | ok count =>
      cases hloop : fetchPairsLoop c [] [] 0 count with
      | error e =>
        have hfetch := hred (⟨pc, pn⟩, .error e) (by simp only [hcount, hloop])
        exact ⟨fun e' _ => by rw [hfetch], Or.inl (by rw [hfetch])⟩
      | ok pair =>
        obtain ⟨ps, ns⟩ := pair
        have hfetch := hred
          ({ pairsCache := some ps, pairNameToIndexMap := some ns }, .ok ps)
          (by simp only [hcount, hloop])
        obtain ⟨fetched, hkeys, hraws, hps, hns⟩ :=
          fetchPairsLoop_ok c count 0 [] [] ps ns hloop
        have hndkeys : (fetched.map Prod.fst).Nodup := by
          rw [hkeys]
          exact List.nodup_range' 0 count
        have hpsf : ps = fetched := by
          rw [hps, foldl_jsMapSet_eq_self fetched hndkeys]
        refine ⟨?_, Or.inr ⟨ps, ns, count, by rw [hfetch], by rw [hfetch], rfl,
          ?_, ?_⟩⟩
        · intro e he
          rw [hfetch] at he
          exact Except.noConfusion he
        · rw [hpsf, hkeys]
        · intro i hi
          have hmemkey : i ∈ fetched.map Prod.fst := by
            rw [hkeys]
            simpa [List.mem_range'_1] using hi
          obtain ⟨e, hmem, hfst⟩ := List.mem_map.mp hmemkey
          obtain ⟨raw, hcp, hmk⟩ := hraws e hmem
          refine ⟨raw, by rw [← hfst]; exact hcp, ?_⟩
          rw [hpsf]
          have he : e = (i, mkPairInfo raw) := by
            obtain ⟨e1, e2⟩ := e
            simp only at hfst hmk
            rw [hfst, hmk]
          rw [← he]
          exact hmem

/-- Witness for C1: with a registry whose second pair read fails and a
previously populated cache, a forced refresh leaves the cache state
exactly as it was. -/
theorem getPairsInfo_atomic_witness :
    (getPairsInfo fixFailingContract fixPrevState true).1 = fixPrevState :=
  (getPairsInfo_atomic fixFailingContract fixPrevState true).1 "boom" (by rfl)

/-- Claim C5: after a `getPairsInfo` call that (re)populates the cache
successfully, and provided pair names `from/to` are unique in the
fetched catalog, the two lookups are mutually inverse on it:
`getPairIndex` of the name of a cached pair returns its index and
`getPairByIndex` of that index returns the pair. -/
theorem getPairsInfo_lookup_inverse (c : PairStorageContract)
    (st st' : PairsCacheState) (ps : List (Nat × PairInfo))
    (hrun : getPairsInfo c st true = (st', .ok ps))
    (hnames : (ps.map (fun e => pairName e.2)).Nodup) :
    ∀ i p, (i, p) ∈ ps →
      (getPairIndex c st' (pairName p)).2 = .ok (some i) ∧
      (getPairByIndex c st' i).2 = .ok (some p) := by
  obtain ⟨pc, pn⟩ := st
  have hrun' : (match c.pairsCount with
      | .error e => ((⟨pc, pn⟩ : PairsCacheState), Except.error e)
      | .ok count =>
        match fetchPairsLoop c [] [] 0 count with
        | .error e => ((⟨pc, pn⟩ : PairsCacheState), .error e)
        | .ok (ps', ns') =>
          ({ pairsCache := some ps', pairNameToIndexMap := some ns' }, .ok ps')) =
      (st', .ok ps) := by
    rw [← hrun]
    cases pc <;> rfl
  cases hcount : c.pairsCount with
  | error e =>
    simp only [hcount] at hrun'
    exact absurd (congrArg Prod.snd hrun') (by simp)
  | ok count =>
    simp only [hcount] at hrun'
    cases hloop : fetchPairsLoop c [] [] 0 count with
    | error e =>
      simp only [hloop] at hrun'
      exact absurd (congrArg Prod.snd hrun') (by simp)
    | ok pair =>
      obtain ⟨ps', ns'⟩ := pair
      simp only [hloop] at hrun'
      have hst' : st' = { pairsCache := some ps', pairNameToIndexMap := some ns' } :=
        (congrArg Prod.fst hrun').symm
      have hpsps' : ps = ps' := by
        have := congrArg Prod.snd hrun'
        simpa using this.symm
      subst hpsps'
      obtain ⟨fetched, hkeys, hraws, hps, hns⟩ :=
        fetchPairsLoop_ok c count 0 [] [] ps ns' hloop
      have hndkeys : (fetched.map Prod.fst).Nodup := by
        rw [hkeys]
        exact List.nodup_range' 0 count
      have hpsf : ps = fetched := by
        rw [hps, foldl_jsMapSet_eq_self fetched hndkeys]
      have hnsf : ns' = fetched.map (fun e => (pairName e.2, e.1)) := by
        have hfold := List.foldl_map (fun e : Nat × PairInfo => (pairName e.2, e.1))
          (fun (a : List (String × Nat)) (x : String × Nat) => jsMapSet a x.1 x.2)
          fetched []
        have hkeysns : ((fetched.map
            (fun e : Nat × PairInfo => (pairName e.2, e.1))).map Prod.fst).Nodup := by
          rw [List.map_map]
          have : (Prod.fst ∘ fun e : Nat × PairInfo => (pairName e.2, e.1)) =
              fun e : Nat × PairInfo => pairName e.2 := rfl
          rw [this, ← hpsf]
          exact hnames
        have hself := foldl_jsMapSet_eq_self
          (fetched.map (fun e : Nat × PairInfo => (pairName e.2, e.1))) hkeysns
        rw [hfold] at hself
        rw [hns, ← hself]
      intro i p hmem
      rw [hpsf] at hmem
      constructor
      · have hgoal : getPairIndex c st' (pairName p) =
            (st', .ok (jsMapGet ns' (pairName p))) := by
          rw [hst']
          rfl
        rw [hgoal]
        have hmemns : (pairName p, i) ∈ ns' := by
          rw [hnsf]
          exact List.mem_map.mpr ⟨(i, p), hmem, rfl⟩
        have hndns : (ns'.map Prod.fst).Nodup := by
          rw [hnsf, List.map_map]
          have : (Prod.fst ∘ fun e : Nat × PairInfo => (pairName e.2, e.1)) =
              fun e : Nat × PairInfo => pairName e.2 := rfl
          rw [this, ← hpsf]
          exact hnames
        rw [jsMapGet_of_mem ns' (pairName p) i hndns hmemns]
      · have hgoal : getPairByIndex c st' i = (st', .ok (jsMapGet ps i)) := by
          rw [hst']
          rfl
        rw [hgoal]
        have hndps : (ps.map Prod.fst).Nodup := by
          rw [hpsf]
          exact hndkeys
        have hmemps : (i, p) ∈ ps := by
          rw [hpsf]
          exact hmem
        rw [jsMapGet_of_mem ps i p hndps hmemps]

/-- Witness for C5: with the two-pair registry `fixGoodContract`,
after the successful populate the name `"BTC/USD"` resolves to index 0
and index 1 resolves back to the ETH pair. -/
theorem getPairsInfo_lookup_inverse_witness :
    (getPairIndex fixGoodContract fixGoodState "BTC/USD").2 = .ok (some 0) ∧
    (getPairByIndex fixGoodContract fixGoodState 1).2 =
      .ok (some (mkPairInfo fixRaw1)) := by
  have H := getPairsInfo_lookup_inverse fixGoodContract ⟨none, none⟩ fixGoodState
    fixGoodPairs (by rfl) (by decide)
  have h0 := (H 0 (mkPairInfo fixRaw0) (by decide)).1
  have h1 := (H 1 (mkPairInfo fixRaw1) (by decide)).2
  have hname : pairName (mkPairInfo fixRaw0) = "BTC/USD" := by decide
  exact ⟨hname ▸ h0, h1⟩
